import Mathlib

/-!
# gonutz/mp3player — the playback engine of `sound.go`

A shallow embedding of the playback engine: the status record and its
`appendErr`, the worker loop of `sound.stream` as a step function on the
worker's local variables and the shared `sound.status`, the UI-side methods
`play` and `currentStatus`, the deferred calls of `stream`, and `newSound`.

Conventions of the embedding.

* A Go `error` is represented by its message (`err.Error()`).
* The results of the library calls (`ioutil.ReadFile`, `mp3.NewDecoder`,
  `decoder.Read`, `decoder.Seek`, `io.Copy` to the player, `oto.NewContext`)
  are not computed by `sound.go`; each event of the worker carries them.
* A `float64` is `Option ℚ`: `some q` is the finite value `q`, `none` is a NaN
  or an infinity.  The rounding of an exact result and the result of an
  out-of-range `int64(x)` conversion are parameters (`FloatEnv`); `ieeeEnv`
  is the arithmetic of Go on amd64, with IEEE 754 binary64 rounding
  (`roundFloat64`).
* Every critical section of `statusMu` is one atomic step.
-/

namespace Mp3Player

/-! ## float64 and int64 -/

/-- A `float64` value: `some q` is finite, `none` is NaN or an infinity. -/
abbrev Float64 := Option ℚ

/-- The parts of the Go arithmetic that `sound.go` relies on but does not define. -/
structure FloatEnv where
  /-- Rounding of an exact rational result to `float64` (`none` on overflow). -/
  rnd : ℚ → Float64
  /-- The value of `int64(x)` when `x` is not representable as an `int64`
  (the Go specification leaves it implementation-dependent). -/
  oor : Int

/-- Exact arithmetic: every result is kept as it is. -/
def exactEnv : FloatEnv := { rnd := fun q => some q, oor := 0 }

/-- Rounding of a rational to the nearest integer, a tie going to the even one. -/
def roundHalfEven (q : ℚ) : Int :=
  if q - ⌊q⌋ < 1 / 2 then ⌊q⌋
  else if 1 / 2 < q - ⌊q⌋ then ⌊q⌋ + 1
  else if ⌊q⌋ % 2 = 0 then ⌊q⌋ else ⌊q⌋ + 1

/-- IEEE 754 binary64 rounding of an exact result, to nearest and ties to even,
which is the rounding of Go's `float64` operations: a value with binary
exponent `e` (at least `-1022`, below which the values are subnormal) is
rounded to a multiple of `2 ^ (e - 52)`, and a result of magnitude `2 ^ 1024`
or more is an infinity. -/
def roundFloat64 (q : ℚ) : Float64 :=
  if q = 0 then some 0
  else
    let e := max (Int.log 2 |q|) (-1022)
    let ulp : ℚ := 2 ^ (e - 52)
    let r : ℚ := (roundHalfEven (q / ulp) : ℚ) * ulp
    if |r| < 2 ^ 1024 then some r else none

/-- The arithmetic of Go on amd64: binary64 rounding, and the "integer
indefinite" value `-2 ^ 63` for an `int64(x)` that is out of range. -/
def ieeeEnv : FloatEnv := { rnd := roundFloat64, oor := -2 ^ 63 }

/-- The `float64` nearest to 1/3, `0x3FD5555555555555`. -/
def oneThird64 : ℚ := 6004799503160661 / 18014398509481984

/-- The conversion `float64(n)` of an `int64`. -/
def floatOfInt (env : FloatEnv) (n : Int) : Float64 := env.rnd (n : ℚ)

/-- The product `a * b` of two `float64`. -/
def fmul (env : FloatEnv) (a b : Float64) : Float64 :=
  match a, b with
  | some x, some y => env.rnd (x * y)
  | _, _ => none

/-- The quotient `a / b` of two `float64`; a zero divisor gives NaN or an infinity. -/
def fdiv (env : FloatEnv) (a b : Float64) : Float64 :=
  match a, b with
  | some x, some y => if y = 0 then none else env.rnd (x / y)
  | _, _ => none

/-- Truncation of a rational toward zero. -/
def truncQ (q : ℚ) : Int := if 0 ≤ q then ⌊q⌋ else ⌈q⌉

/-- An integer is an `int64`. -/
def isInt64 (z : Int) : Prop := -(2 : Int) ^ 63 ≤ z ∧ z < (2 : Int) ^ 63

instance (z : Int) : Decidable (isInt64 z) := by unfold isInt64; infer_instance

/-- The conversion `int64(x)` of a `float64`: the fraction is discarded
(truncation toward zero); a value that does not fit gives `env.oor`. -/
def int64OfFloat (env : FloatEnv) (x : Float64) : Int :=
  match x with
  | some q => if isInt64 (truncQ q) then truncQ q else env.oor
  | none => env.oor

/-- Two's-complement wrap-around of `int64` arithmetic. -/
def wrapInt64 (z : Int) : Int := (z + 2 ^ 63) % 2 ^ 64 - 2 ^ 63

/-! ## The status record -/

/-- The record `soundStatus` (sound.go, lines 29-35). -/
structure soundStatus where
  playingFile : Bool
  currentFile : String
  fractionPlayed : Float64
  paused : Bool
  errors : List String
  deriving DecidableEq

/-- The zero value of `soundStatus` (`var status soundStatus`). -/
def soundStatus.zero : soundStatus :=
  { playingFile := false, currentFile := "", fractionPlayed := some 0,
    paused := false, errors := [] }

/-- The method `appendErr` (sound.go, lines 37-44). -/
def soundStatus.appendErr (s : soundStatus) (context err : String) : soundStatus :=
  let msg := context ++ ": "
  let msg := if s.currentFile ≠ "" then msg ++ (s.currentFile ++ ": ") else msg
  let msg := msg ++ err
  { s with errors := s.errors ++ [msg] }

/-! ## The decoder and the results of the library calls -/

/-- What the worker asks of an open `*mp3.Decoder`: `SampleRate()` and `Length()`. -/
structure Decoder where
  sampleRate : Int
  length : Int
  deriving DecidableEq

/-- Result of `ioutil.ReadFile` followed, on success, by `mp3.NewDecoder`. -/
inductive LoadResult where
  | readFileErr (err : String)
  | newDecoderErr (err : String)
  | decoded (r : Decoder)
  deriving DecidableEq

/-- The error result of `decoder.Read`. -/
inductive ReadResult where
  | ok
  | eof
  | fail (err : String)
  deriving DecidableEq

/-- The library results of one pump step: the error of `decoder.Read`, the
error of `io.Copy(player, ...)`, and the position that
`decoder.Seek(0, io.SeekCurrent)` reports. -/
structure PumpResult where
  read : ReadResult
  write : Option String
  pos : Int

/-! ## The worker loop -/

/-- One iteration of the `for { select { ... } }` loop of `stream` that does
not return: a received message together with the library results it meets, or
the `default` branch. -/
inductive Event where
  | playSong (path : String) (res : LoadResult)
  | moveToFraction (f : Float64) (seek : Int → Option String)
  | togglePause
  | other
  | pump (o : PumpResult)

/-- The local variables `status` and `decoder` of `stream`, and the field
`s.status` the worker shares with the UI. -/
structure Engine where
  status : soundStatus
  decoder : Option Decoder
  shared : soundStatus

/-- The closure `updateStatus` (sound.go, lines 56-60): `s.status = status`. -/
def updateStatus (e : Engine) : Engine := { e with shared := e.status }

/-- The state when the loop is entered. -/
def Engine.init : Engine :=
  { status := soundStatus.zero, decoder := none, shared := soundStatus.zero }

/-- The offset handed to `decoder.Seek` (sound.go, lines 129-134):
`pos := int64(fraction * float64(decoder.Length()))`, `pos = pos - (pos % 4)`. -/
def seekOffset (env : FloatEnv) (fraction : Float64) (length : Int) : Int :=
  let pos := int64OfFloat env (fmul env fraction (floatOfInt env length))
  wrapInt64 (pos - pos.tmod 4)

/-- Marks the worker's state as not playing: `decoder = nil`,
`status.playingFile = false`, `status.currentFile = ""` (lines 159-161 and 166-168). -/
def stopPlaying (e : Engine) : Engine :=
  { e with decoder := none,
           status := { e.status with playingFile := false, currentFile := "" } }

/-- The `case playSong` (sound.go, lines 99-125). -/
def casePlaySong (e : Engine) (path : String) (res : LoadResult) : Engine :=
  let status : soundStatus :=
    { e.status with playingFile := false, paused := false,
                    fractionPlayed := some 0, currentFile := path }
  let e : Engine := { e with decoder := none, status := status }
  let e : Engine :=
    match res with
    | .readFileErr err =>
      { e with status := e.status.appendErr "Failed to load mp3 file" err }
    | .newDecoderErr err =>
      { e with status := e.status.appendErr "Failed to decode mp3 header" err }
    | .decoded r =>
      if r.sampleRate ≠ 44100 then
        { e with status := e.status.appendErr "Only sample rate 44100 is supported"
                   ("sample rate is " ++ toString r.sampleRate) }
      else
        { e with decoder := some r, status := { e.status with playingFile := true } }
  let e : Engine :=
    if !e.status.playingFile then { e with status := { e.status with currentFile := "" } }
    else e
  updateStatus e

/-- The `case moveToFraction` (sound.go, lines 126-144). -/
def caseMoveToFraction (env : FloatEnv) (e : Engine) (fraction : Float64)
    (seek : Int → Option String) : Engine :=
  match e.decoder with
  | none => e
  | some d =>
    let e : Engine := { e with status := { e.status with paused := false } }
    let pos := seekOffset env fraction d.length
    let e : Engine :=
      match seek pos with
      | some err => { e with status := e.status.appendErr "Failed to move in mp3" err }
      | none => e
    updateStatus e

/-- The `case togglePause` (sound.go, lines 145-147). -/
def caseTogglePause (e : Engine) : Engine :=
  updateStatus { e with status := { e.status with paused := !e.status.paused } }

/-- The `default` branch (sound.go, lines 149-177). -/
def pump (env : FloatEnv) (e : Engine) (o : PumpResult) : Engine :=
  if e.status.paused || e.decoder.isNone then
    e
  else
    let e : Engine :=
      match o.read with
      | .ok => e
      | .eof => stopPlaying e
      | .fail err =>
        stopPlaying { e with status := e.status.appendErr "Failed to decode mp3 stream" err }
    let e : Engine :=
      match o.write with
      | some err =>
        stopPlaying
          { e with status := e.status.appendErr "Failed to write data to sound system" err }
      | none => e
    let e : Engine :=
      match e.decoder with
      | some d =>
        { e with status := { e.status with
            fractionPlayed := fdiv env (floatOfInt env o.pos) (floatOfInt env d.length) } }
      | none => e
    updateStatus e

/-- One iteration of the loop of `stream` (every message but `quit`). -/
def Engine.step (env : FloatEnv) (e : Engine) : Event → Engine
  | .playSong path res => casePlaySong e path res
  | .moveToFraction f seek => caseMoveToFraction env e f seek
  | .togglePause => caseTogglePause e
  | .other => e
  | .pump o => pump env e o

/-- The worker's state after a sequence of loop iterations. -/
def Engine.run (env : FloatEnv) (e : Engine) (evs : List Event) : Engine :=
  evs.foldl (Engine.step env) e

/-! ## The UI side -/

/-- The method `currentStatus` (sound.go, lines 207-213): the returned copy and
the engine with `s.status.errors = nil`. -/
def currentStatus (e : Engine) : soundStatus × Engine :=
  let status := e.shared
  (status, { e with shared := { e.shared with errors := [] } })

/-- The first statement of `play` (sound.go, line 192): `s.status.playingFile = true`. -/
def playFlag (e : Engine) : Engine :=
  { e with shared := { e.shared with playingFile := true } }

/-- An action of either side: a loop iteration of the worker, a call of
`currentStatus`, or the flag that `play` sets before it sends its message. -/
inductive Action where
  | worker (ev : Event)
  | read
  | playFlag

/-- Runs a sequence of actions; returns the final state and the statuses the
calls of `currentStatus` returned, in order. -/
def runActions (env : FloatEnv) : Engine → List Action → Engine × List soundStatus
  | e, [] => (e, [])
  | e, .worker ev :: as => runActions env (e.step env ev) as
  | e, .read :: as =>
    let r := currentStatus e
    let rest := runActions env r.2 as
    (rest.1, r.1 :: rest.2)
  | e, .playFlag :: as => runActions env (playFlag e) as

/-! ## The goroutine around the loop -/

/-- A call that `stream` defers: `context.Close()` (line 83), `player.Close()`
(line 86), and the answer `s.messages <- quit{}` (line 97). -/
inductive Deferred where
  | contextClose
  | playerClose
  | sendQuit
  deriving DecidableEq

/-- The goroutine `stream`: the variables of the loop, the stack of deferred
calls (the most recently deferred call first) and whether the loop is running. -/
structure Goroutine where
  engine : Engine
  defers : List Deferred
  running : Bool

/-- The statement `defer c`: pushes the call on the stack. -/
def Goroutine.defer (g : Goroutine) (c : Deferred) : Goroutine :=
  { g with defers := c :: g.defers }

/-- The statement `return`: the goroutine stops and its deferred calls run in
last-in-first-out order; the result is the list of calls in the order they run. -/
def Goroutine.ret (g : Goroutine) : Goroutine × List Deferred :=
  ({ g with running := false, defers := [] }, g.defers)

/-- The part of `stream` before the loop (sound.go, lines 55-90), given the
error result of `oto.NewContext` and the `sound` the goroutine belongs to. -/
def streamStart (shared : soundStatus) (ctxErr : Option String) : Goroutine :=
  let g : Goroutine :=
    { engine := { status := soundStatus.zero, decoder := none, shared := shared },
      defers := [], running := true }
  match ctxErr with
  | some err =>
    ({ g with engine := { g.engine with
         status := g.engine.status.appendErr "Failed to initialize sound system" err } }).ret.1
  | none => (g.defer .contextClose).defer .playerClose

/-- Loop iterations of a running goroutine: they change the variables of the
loop and defer nothing. -/
def Goroutine.loop (env : FloatEnv) (g : Goroutine) (evs : List Event) : Goroutine :=
  { g with engine := g.engine.run env evs }

/-- The `case quit` (sound.go, lines 96-98): defers the answer and returns. -/
def caseQuit (g : Goroutine) : Goroutine × List Deferred :=
  (g.defer .sendQuit).ret

/-- The function `newSound` (sound.go, lines 15-21), given the error result that
`oto.NewContext` has in the goroutine it starts: the new `sound` with its
goroutine, and the returned error (`none` is `nil`). -/
def newSound (ctxErr : Option String) : Goroutine × Option String :=
  (streamStart soundStatus.zero ctxErr, none)

/-- The position of the first occurrence of a call in the list of calls run. -/
def callIndex (c : Deferred) (calls : List Deferred) : Nat := calls.indexOf c

/-! ## Auxiliary facts -/

theorem wrapInt64_of_isInt64 (z : Int) (h : isInt64 z) : wrapInt64 z = z := by
  unfold isInt64 at h
  unfold wrapInt64
  rw [Int.emod_eq_of_lt] <;> omega

theorem tmod_four_bounds (z : Int) :
    z - z.tmod 4 = 4 * z.tdiv 4 ∧ (0 ≤ z → 0 ≤ z - z.tmod 4 ∧ z - z.tmod 4 ≤ z) ∧
      (z ≤ 0 → z ≤ z - z.tmod 4 ∧ z - z.tmod 4 ≤ 0) := by
  have h := Int.tdiv_add_tmod z 4
  refine ⟨by omega, ?_, ?_⟩
  · intro hz
    have h1 := Int.tmod_nonneg 4 hz
    have h2 := Int.tmod_lt_of_pos z (by norm_num : (0 : Int) < 4)
    have h3 : 0 ≤ z.tdiv 4 := Int.tdiv_nonneg hz (by norm_num)
    omega
  · intro hz
    have h1 : (-z).tdiv 4 = -(z.tdiv 4) := Int.neg_tdiv z 4
    have h2 := Int.tmod_nonneg 4 (by omega : 0 ≤ -z)
    have h3 := Int.tmod_lt_of_pos (-z) (by norm_num : (0 : Int) < 4)
    have h4 := Int.tdiv_add_tmod (-z) 4
    have h5 : 0 ≤ (-z).tdiv 4 := Int.tdiv_nonneg (by omega) (by norm_num)
    omega

theorem align_isInt64 (z : Int) (h : isInt64 z) : isInt64 (z - z.tmod 4) := by
  obtain ⟨_, h1, h2⟩ := tmod_four_bounds z
  unfold isInt64 at *
  rcases le_total 0 z with hz | hz
  · have := h1 hz; omega
  · have := h2 hz; omega

theorem truncQ_le (q : ℚ) (hq : 0 ≤ q) : 0 ≤ truncQ q ∧ ((truncQ q : Int) : ℚ) ≤ q := by
  unfold truncQ
  rw [if_pos hq]
  exact ⟨Int.floor_nonneg.mpr hq, Int.floor_le q⟩

/-- The invariant of the worker's variables: without a decoder the status
names no file and is not playing. -/
def Idle (e : Engine) : Prop :=
  e.decoder = none → e.status.currentFile = "" ∧ e.status.playingFile = false

theorem idle_init : Idle Engine.init := by
  intro _
  exact ⟨rfl, rfl⟩

theorem idle_casePlaySong (e : Engine) (path : String) (res : LoadResult) :
    Idle (casePlaySong e path res) := by
  unfold Idle casePlaySong updateStatus
  cases res with
  | readFileErr err => simp [soundStatus.appendErr]
  | newDecoderErr err => simp [soundStatus.appendErr]
  | decoded r =>
    by_cases h : r.sampleRate = 44100 <;> simp [h, soundStatus.appendErr]

theorem idle_caseMoveToFraction (env : FloatEnv) (e : Engine) (f : Float64)
    (seek : Int → Option String) (h : Idle e) : Idle (caseMoveToFraction env e f seek) := by
  unfold caseMoveToFraction
  cases hd : e.decoder with
  | none => simpa using h
  | some d =>
    intro hnone
    simp only [updateStatus] at hnone
    cases hs : seek (seekOffset env f d.length) <;> simp [hs, hd] at hnone

theorem idle_pump (env : FloatEnv) (e : Engine) (o : PumpResult) (h : Idle e) :
    Idle (pump env e o) := by
  unfold pump
  split
  · exact h
  · rename_i hrun
    obtain ⟨r, w, pos⟩ := o
    cases hd : e.decoder with
    | none => simp [hd] at hrun
    | some d => cases r <;> cases w <;> simp [Idle, updateStatus, stopPlaying, hd]

theorem idle_step (env : FloatEnv) (e : Engine) (ev : Event) (h : Idle e) :
    Idle (e.step env ev) := by
  cases ev with
  | playSong path res => exact idle_casePlaySong e path res
  | moveToFraction f seek => exact idle_caseMoveToFraction env e f seek h
  | togglePause => exact h
  | other => exact h
  | pump o => exact idle_pump env e o h

theorem idle_run (env : FloatEnv) (evs : List Event) (e : Engine) (h : Idle e) :
    Idle (e.run env evs) := by
  induction evs generalizing e with
  | nil => exact h
  | cons ev evs ih => exact ih (e.step env ev) (idle_step env e ev h)

/-- The step `moveToFraction` consults the decoder's seek at `seekOffset` only. -/
theorem caseMoveToFraction_seeks_at_offset (env : FloatEnv) (e : Engine) (d : Decoder)
    (f : Float64) (seek : Int → Option String) (hd : e.decoder = some d) :
    caseMoveToFraction env e f seek =
      caseMoveToFraction env e f (fun _ => seek (seekOffset env f d.length)) := by
  simp [caseMoveToFraction, hd]

/-- In exact arithmetic, half of a track of 10 bytes is sought at offset 4. -/
theorem seekOffset_half_of_ten : seekOffset exactEnv (some (1 / 2)) 10 = 4 := by
  have h : truncQ ((1 / 2 : ℚ) * ((10 : Int) : ℚ)) = 5 := by
    unfold truncQ
    norm_num
  simp only [seekOffset, fmul, floatOfInt, exactEnv, int64OfFloat, h]
  decide

theorem roundHalfEven_of_lt (q : ℚ) (z : Int) (h1 : (z : ℚ) ≤ q) (h2 : q - z < 1 / 2) :
    roundHalfEven q = z := by
  have hf : ⌊q⌋ = z := Int.floor_eq_iff.mpr ⟨h1, by linarith⟩
  unfold roundHalfEven
  rw [hf, if_pos h2]

theorem roundHalfEven_of_gt (q : ℚ) (z : Int) (h1 : 1 / 2 < q - z) (h2 : q < z + 1) :
    roundHalfEven q = z + 1 := by
  have hf : ⌊q⌋ = z := Int.floor_eq_iff.mpr ⟨by linarith, h2⟩
  unfold roundHalfEven
  rw [hf, if_neg (by linarith), if_pos h1]

theorem roundHalfEven_nonneg (q : ℚ) (hq : 0 ≤ q) : 0 ≤ roundHalfEven q := by
  have hf : 0 ≤ ⌊q⌋ := Int.floor_nonneg.mpr hq
  unfold roundHalfEven
  split_ifs <;> omega

/-- The rounding of a positive value whose binary exponent `e` is known. -/
theorem roundFloat64_of (q : ℚ) (e m : Int) (hq : 0 < q)
    (he1 : (2 : ℚ) ^ e ≤ q) (he2 : q < (2 : ℚ) ^ (e + 1)) (he : -1022 ≤ e)
    (hm : roundHalfEven (q / 2 ^ (e - 52)) = m)
    (hfin : |(m : ℚ) * 2 ^ (e - 52)| < 2 ^ 1024) :
    roundFloat64 q = some ((m : ℚ) * 2 ^ (e - 52)) := by
  have hlog : Int.log 2 |q| = e := by
    rw [abs_of_pos hq]
    apply le_antisymm
    · have := (Int.lt_zpow_iff_log_lt (b := 2) (by norm_num) hq (x := e + 1)).mp
        (by exact_mod_cast he2)
      omega
    · exact (Int.zpow_le_iff_le_log (b := 2) (by norm_num) hq).mp (by exact_mod_cast he1)
  unfold roundFloat64
  rw [if_neg hq.ne']
  simp only [hlog, max_eq_left he, hm, if_pos hfin]

/-- Binary64 rounding keeps a non-negative result non-negative. -/
theorem roundFloat64_nonneg (q r : ℚ) (hq : 0 ≤ q) (h : roundFloat64 q = some r) : 0 ≤ r := by
  unfold roundFloat64 at h
  by_cases h0 : q = 0
  · rw [if_pos h0, Option.some.injEq] at h
    exact h ▸ le_refl 0
  · rw [if_neg h0] at h
    simp only at h
    split_ifs at h
    rw [Option.some.injEq] at h
    rw [← h]
    have hulp : (0 : ℚ) < 2 ^ (max (Int.log 2 |q|) (-1022) - 52) := zpow_pos (by norm_num) _
    have hm := roundHalfEven_nonneg (q / 2 ^ (max (Int.log 2 |q|) (-1022) - 52))
      (div_nonneg hq hulp.le)
    exact mul_nonneg (by exact_mod_cast hm) hulp.le

/-- The value `oneThird64` is a `float64`, the one that 1/3 rounds to. -/
theorem roundFloat64_oneThird :
    roundFloat64 (1 / 3) = some oneThird64 ∧ roundFloat64 oneThird64 = some oneThird64 := by
  constructor
  · rw [roundFloat64_of (1 / 3) (-2) 6004799503160661 (by norm_num) (by norm_num) (by norm_num)
      (by norm_num) (roundHalfEven_of_lt _ _ (by norm_num) (by norm_num))
      (abs_lt.mpr ⟨by norm_num, by norm_num⟩)]
    unfold oneThird64
    norm_num
  · unfold oneThird64
    rw [roundFloat64_of _ (-2) 6004799503160661 (by norm_num) (by norm_num) (by norm_num)
      (by norm_num) (roundHalfEven_of_lt _ _ (by norm_num) (by norm_num))
      (abs_lt.mpr ⟨by norm_num, by norm_num⟩)]
    norm_num

/-- The length 13824 is converted exactly. -/
theorem floatOfInt_13824 : floatOfInt ieeeEnv 13824 = some 13824 := by
  unfold floatOfInt ieeeEnv
  simp only [Int.cast_ofNat]
  rw [roundFloat64_of 13824 13 (13824 * 2 ^ 39) (by norm_num) (by norm_num) (by norm_num)
    (by norm_num) (roundHalfEven_of_lt _ _ (by norm_num) (by norm_num))
      (abs_lt.mpr ⟨by norm_num, by norm_num⟩)]
  norm_num

/-- The exact product `oneThird64 * 13824 = 4608 - 9 / 2 ^ 45` rounds up to 4608. -/
theorem fmul_oneThird_13824 :
    fmul ieeeEnv (some oneThird64) (floatOfInt ieeeEnv 13824) = some 4608 := by
  rw [floatOfInt_13824]
  unfold fmul ieeeEnv oneThird64
  simp only
  rw [roundFloat64_of _ 12 (5066549580791807 + 1) (by norm_num) (by norm_num) (by norm_num)
    (by norm_num) (roundHalfEven_of_gt _ _ (by norm_num) (by norm_num))
      (abs_lt.mpr ⟨by norm_num, by norm_num⟩)]
  norm_num

/-- The offset sought for the fraction `oneThird64` of a track of 13824 bytes. -/
theorem seekOffset_oneThird_13824 : seekOffset ieeeEnv (some oneThird64) 13824 = 4608 := by
  have h : truncQ 4608 = 4608 := by
    unfold truncQ
    norm_num
  have hfit : isInt64 4608 := by
    unfold isInt64
    norm_num
  have hw : wrapInt64 (4608 - (4608 : Int).tmod 4) = 4608 := by
    unfold wrapInt64
    norm_num [Int.tmod]
  unfold seekOffset
  rw [fmul_oneThird_13824]
  unfold int64OfFloat
  simp only [h]
  rw [if_pos hfit]
  exact hw

/-! ## The claims -/

/-- The trace of C1: a `play` whose file fails to load, a read, a
`togglePause`, and a second read. -/
def traceOneError : List Action :=
  [.playFlag, .worker (.playSong "a.mp3" (.readFileErr "no such file")), .read,
   .worker .togglePause, .read]

/-- The trace of C2: a `play` whose file fails to load, a read, a second `play`
whose file fails to load, and two reads. -/
def traceTwoFailures : List Action :=
  [.playFlag, .worker (.playSong "a.mp3" (.readFileErr "no such file")), .read,
   .playFlag, .worker (.playSong "b.mp3" (.readFileErr "no such file")), .read, .read]

/-- C1 (evaluation of the code): one file fails to load, so the worker records
exactly one error; the UI reads the status, the worker processes a
`togglePause`, and the UI reads again.  Both reads return that one error: the
worker's own list is never cleared and `updateStatus` publishes it again. -/
theorem error_returned_by_two_reads :
    (runActions exactEnv Engine.init traceOneError).1.status.errors =
        ["Failed to load mp3 file: a.mp3: no such file"] ∧
      (runActions exactEnv Engine.init traceOneError).2.map (fun st => st.errors) =
        [["Failed to load mp3 file: a.mp3: no such file"],
         ["Failed to load mp3 file: a.mp3: no such file"]] := by
  decide

/-- C2 (evaluation of the code): the UI has read the status after the error of
a first failed `playSong`; a second `playSong` whose file cannot be opened is
processed.  The next read returns two errors, the old one and the new one,
and the read directly after it returns none. -/
theorem failed_playSong_returns_old_errors_too :
    (runActions exactEnv Engine.init traceTwoFailures).2.map
        (fun st => (st.playingFile, st.currentFile, st.errors)) =
      [(false, "", ["Failed to load mp3 file: a.mp3: no such file"]),
       (false, "", ["Failed to load mp3 file: a.mp3: no such file",
                    "Failed to load mp3 file: b.mp3: no such file"]),
       (false, "", [])] := by
  decide

/-- C3 (counterexample to the claim as stated): in binary64 arithmetic, for the
fraction `oneThird64` (the `float64` nearest to 1/3, between 0 and 1) and a
track of 13824 bytes, the product `f * float64(L)` rounds up to 4608, so the
offset handed to `decoder.Seek` is 4608, which is greater than the exact
product `f * L = 4608 - 9 / 2 ^ 45`. -/
theorem seekOffset_exceeds_exact_product :
    (0 : ℚ) ≤ oneThird64 ∧ oneThird64 ≤ 1 ∧ ieeeEnv.rnd oneThird64 = some oneThird64 ∧
      seekOffset ieeeEnv (some oneThird64) 13824 = 4608 ∧
      ¬ (((seekOffset ieeeEnv (some oneThird64) 13824 : Int) : ℚ) ≤
          oneThird64 * ((13824 : Int) : ℚ)) := by
  refine ⟨?_, ?_, roundFloat64_oneThird.2, seekOffset_oneThird_13824, ?_⟩
  · unfold oneThird64
    norm_num
  · unfold oneThird64
    norm_num
  · rw [seekOffset_oneThird_13824]
    unfold oneThird64
    norm_num

/-- C3 (amended): for every fraction `f ≥ 0` (in particular `0 ≤ f ≤ 1`) and
every track length `L ≥ 0`, the offset that `moveToFraction(f)` hands to
`decoder.Seek` is a multiple of 4 and is at most the `float64` product
`f * float64(L)` the code computes, the rounded value that `int64()` is
applied to, whenever that product is finite.  It holds for every rounding of
`float64` results that keeps a non-negative result non-negative (binary64
rounding does), and for every `int64` an out-of-range conversion may give. -/
theorem seekOffset_aligned_le (env : FloatEnv) (f : ℚ) (L : Int)
    (hrnd : ∀ q r, 0 ≤ q → env.rnd q = some r → 0 ≤ r) (hoor : isInt64 env.oor)
    (hf0 : 0 ≤ f) (hf1 : f ≤ 1) (hL : 0 ≤ L) :
    4 ∣ seekOffset env (some f) L ∧
      ∀ x, fmul env (some f) (floatOfInt env L) = some x →
        ((seekOffset env (some f) L : Int) : ℚ) ≤ x := by
  have _ := hf1
  have hpos : isInt64 (int64OfFloat env (fmul env (some f) (floatOfInt env L))) := by
    unfold int64OfFloat
    split
    · split
      · assumption
      · exact hoor
    · exact hoor
  have hw : seekOffset env (some f) L =
      int64OfFloat env (fmul env (some f) (floatOfInt env L)) -
        (int64OfFloat env (fmul env (some f) (floatOfInt env L))).tmod 4 :=
    wrapInt64_of_isInt64 _ (align_isInt64 _ hpos)
  obtain ⟨hmul, hnn, hnp⟩ := tmod_four_bounds (int64OfFloat env (fmul env (some f) (floatOfInt env L)))
  refine ⟨?_, ?_⟩
  · rw [hw, hmul]
    exact Dvd.intro _ rfl
  · intro x hx
    rw [hw]
    -- the product is a non-negative finite value
    have hx0 : 0 ≤ x := by
      unfold fmul floatOfInt at hx
      cases hl : env.rnd (L : ℚ) with
      | none => simp [hl] at hx
      | some l =>
        simp only [hl] at hx
        have hl0 : 0 ≤ l := hrnd _ l (by exact_mod_cast hL) hl
        exact hrnd _ x (mul_nonneg hf0 hl0) hx
    obtain ⟨ht0, htle⟩ := truncQ_le x hx0
    rw [hx] at hnn hnp ⊢
    unfold int64OfFloat at hnn hnp ⊢
    simp only at hnn hnp ⊢
    by_cases hfit : isInt64 (truncQ x)
    · simp only [hfit, if_true] at hnn hnp ⊢
      have := (hnn ht0).2
      have hc : ((truncQ x - (truncQ x).tmod 4 : Int) : ℚ) ≤ (truncQ x : ℚ) := by
        exact_mod_cast this
      exact le_trans hc htle
    · simp only [hfit, if_false] at hnn hnp ⊢
      -- the conversion is out of range: the product is at least 2 ^ 63
      have hbig : (2 : Int) ^ 63 ≤ truncQ x := by
        unfold isInt64 at hfit
        omega
      have hsmall : env.oor - env.oor.tmod 4 ≤ truncQ x := by
        unfold isInt64 at hoor
        rcases le_total 0 env.oor with h0 | h0
        · have := (hnn h0).2; omega
        · have := (hnp h0).2; omega
      have hc : ((env.oor - env.oor.tmod 4 : Int) : ℚ) ≤ (truncQ x : ℚ) := by
        exact_mod_cast hsmall
      exact le_trans hc htle

/-- Witness for C3: the fraction `oneThird64` of a track of 13824 bytes, in
binary64 arithmetic; the offset 4608 is at most the rounded product 4608. -/
theorem seekOffset_aligned_le_witness :
    (0 : ℚ) ≤ oneThird64 ∧ oneThird64 ≤ 1 ∧ (0 : Int) ≤ 13824 ∧ isInt64 ieeeEnv.oor ∧
      fmul ieeeEnv (some oneThird64) (floatOfInt ieeeEnv 13824) = some 4608 ∧
      (4 ∣ seekOffset ieeeEnv (some oneThird64) 13824 ∧
        ∀ x, fmul ieeeEnv (some oneThird64) (floatOfInt ieeeEnv 13824) = some x →
          ((seekOffset ieeeEnv (some oneThird64) 13824 : Int) : ℚ) ≤ x) :=
  ⟨by unfold oneThird64; norm_num, by unfold oneThird64; norm_num, by norm_num,
    by unfold isInt64 ieeeEnv; norm_num, fmul_oneThird_13824,
    seekOffset_aligned_le ieeeEnv oneThird64 13824
      (fun q r hq h => roundFloat64_nonneg q r hq h)
      (by unfold isInt64 ieeeEnv; norm_num) (by unfold oneThird64; norm_num)
      (by unfold oneThird64; norm_num) (by norm_num)⟩

/-- C4: in every engine state, one `togglePause` negates `paused` and publishes
the status; two in a row give back the worker's status (so `paused`,
`fractionPlayed`, `playingFile` and `currentFile` have their original values),
leave the decoder as it was, and publish that status. -/
theorem togglePause_twice (env : FloatEnv) (e : Engine) :
    (e.step env .togglePause).status = { e.status with paused := !e.status.paused } ∧
      (e.step env .togglePause).shared = (e.step env .togglePause).status ∧
      (e.step env .togglePause).decoder = e.decoder ∧
      ((e.step env .togglePause).step env .togglePause).status = e.status ∧
      ((e.step env .togglePause).step env .togglePause).decoder = e.decoder ∧
      ((e.step env .togglePause).step env .togglePause).shared = e.status := by
  simp [Engine.step, caseTogglePause, updateStatus]

/-- C5: for every published snapshot, the first of two consecutive calls of
`currentStatus` returns the snapshot as it is, with its whole error list, and
the second returns the same `playingFile`, `currentFile`, `fractionPlayed` and
`paused` with an empty error list. -/
theorem currentStatus_twice (e : Engine) :
    (currentStatus e).1 = e.shared ∧
      (currentStatus (currentStatus e).2).1 = { e.shared with errors := [] } ∧
      (currentStatus (currentStatus e).2).1.playingFile = (currentStatus e).1.playingFile ∧
      (currentStatus (currentStatus e).2).1.currentFile = (currentStatus e).1.currentFile ∧
      (currentStatus (currentStatus e).2).1.fractionPlayed =
        (currentStatus e).1.fractionPlayed ∧
      (currentStatus (currentStatus e).2).1.paused = (currentStatus e).1.paused ∧
      (currentStatus (currentStatus e).2).1.errors = [] := by
  simp [currentStatus]

/-- C6 (evaluation of the code): when the worker processes `quit`, after any
loop iterations, the deferred calls run in the order answer, `player.Close()`,
`context.Close()`: the answer that unblocks `close()` is sent before the
player and the context are closed. -/
theorem quit_answers_before_closing (env : FloatEnv) (shared : soundStatus)
    (evs : List Event) :
    (caseQuit ((streamStart shared none).loop env evs)).2 =
        [.sendQuit, .playerClose, .contextClose] ∧
      callIndex .sendQuit (caseQuit ((streamStart shared none).loop env evs)).2 <
        callIndex .playerClose (caseQuit ((streamStart shared none).loop env evs)).2 ∧
      callIndex .sendQuit (caseQuit ((streamStart shared none).loop env evs)).2 <
        callIndex .contextClose (caseQuit ((streamStart shared none).loop env evs)).2 := by
  refine ⟨rfl, ?_, ?_⟩ <;>
    simp [caseQuit, streamStart, Goroutine.defer, Goroutine.ret, Goroutine.loop, callIndex,
      List.indexOf_cons]

/-- C7: in every state the worker reaches from the initial state by loop
iterations with any messages and any library results, if no decoder is
installed then `currentFile = ""` and `playingFile = false`. -/
theorem no_decoder_implies_idle (env : FloatEnv) (evs : List Event) :
    (Engine.init.run env evs).decoder = none →
      (Engine.init.run env evs).status.currentFile = "" ∧
        (Engine.init.run env evs).status.playingFile = false :=
  idle_run env evs Engine.init idle_init

/-- Witness for C7: a track is loaded, paused, and ends with a decode failure. -/
theorem no_decoder_implies_idle_witness :
    (Engine.init.run exactEnv
        [.playSong "a.mp3" (.decoded { sampleRate := 44100, length := 400 }),
         .togglePause, .togglePause,
         .pump { read := .fail "bad frame", write := none, pos := 0 }]).decoder = none ∧
      ((Engine.init.run exactEnv
        [.playSong "a.mp3" (.decoded { sampleRate := 44100, length := 400 }),
         .togglePause, .togglePause,
         .pump { read := .fail "bad frame", write := none, pos := 0 }]).status.currentFile = "" ∧
       (Engine.init.run exactEnv
        [.playSong "a.mp3" (.decoded { sampleRate := 44100, length := 400 }),
         .togglePause, .togglePause,
         .pump { read := .fail "bad frame", write := none, pos := 0 }]).status.playingFile
          = false) :=
  ⟨by decide, no_decoder_implies_idle exactEnv _ (by decide)⟩

/-- C8 (evaluation of the code): whatever error `oto.NewContext` returns,
`newSound` returns a nil error; the goroutine stops before its loop, and the
published status carries no error. -/
theorem newSound_returns_nil_error (err : String) :
    (newSound (some err)).2 = none ∧
      (newSound (some err)).1.running = false ∧
      (newSound (some err)).1.engine.shared.errors = [] ∧
      (newSound (some err)).1.engine.status.errors =
        ["Failed to initialize sound system: " ++ err] := by
  refine ⟨rfl, rfl, rfl, ?_⟩
  simp [newSound, streamStart, Goroutine.ret, soundStatus.appendErr, soundStatus.zero]

/-- C9 (evaluation of the code): with a decoder installed, a `moveToFraction`
whose seek fails appends the labelled error and publishes it, but keeps the
decoder, `playingFile` and `currentFile`: the engine does not become idle. -/
theorem seek_failure_keeps_playing (env : FloatEnv) (e : Engine) (d : Decoder)
    (f : Float64) (err : String) (hd : e.decoder = some d) :
    (e.step env (.moveToFraction f (fun _ => some err))).decoder = some d ∧
      (e.step env (.moveToFraction f (fun _ => some err))).status.playingFile =
        e.status.playingFile ∧
      (e.step env (.moveToFraction f (fun _ => some err))).status.currentFile =
        e.status.currentFile ∧
      (e.step env (.moveToFraction f (fun _ => some err))).status.errors =
        (e.status.appendErr "Failed to move in mp3" err).errors ∧
      (e.step env (.moveToFraction f (fun _ => some err))).shared =
        (e.step env (.moveToFraction f (fun _ => some err))).status := by
  simp [Engine.step, caseMoveToFraction, hd, updateStatus, soundStatus.appendErr]

/-- Witness for C9: the track "a.mp3" is playing and a seek to its middle fails. -/
theorem seek_failure_keeps_playing_witness :
    (Engine.init.step exactEnv
        (.playSong "a.mp3" (.decoded { sampleRate := 44100, length := 400 }))).decoder
        = some { sampleRate := 44100, length := 400 } ∧
      ((Engine.init.step exactEnv
        (.playSong "a.mp3" (.decoded { sampleRate := 44100, length := 400 }))).step exactEnv
          (.moveToFraction (some (1 / 2)) (fun _ => some "seek failed"))).decoder
        = some { sampleRate := 44100, length := 400 } ∧
      ((Engine.init.step exactEnv
        (.playSong "a.mp3" (.decoded { sampleRate := 44100, length := 400 }))).step exactEnv
          (.moveToFraction (some (1 / 2)) (fun _ => some "seek failed"))).status.playingFile
        = true :=
  ⟨by decide,
   (seek_failure_keeps_playing exactEnv _ { sampleRate := 44100, length := 400 }
      (some (1 / 2)) "seek failed" (by decide)).1,
   ((seek_failure_keeps_playing exactEnv _ { sampleRate := 44100, length := 400 }
      (some (1 / 2)) "seek failed" (by decide)).2.1).trans (by decide)⟩

/-- C10: with a decoder installed, `paused = false` and the sink write
succeeding, a pump step whose read reports end-of-stream and one whose read
reports another error both remove the decoder and publish the worker's status
with `playingFile = false` and `currentFile = ""`, `paused` and
`fractionPlayed` unchanged; the end-of-stream step leaves the error list as it
was and the other step appends exactly one error to it. -/
theorem pump_eof_and_failure_agree (env : FloatEnv) (e : Engine) (d : Decoder)
    (err : String) (pos pos' : Int)
    (hd : e.decoder = some d) (hp : e.status.paused = false) :
    (pump env e { read := .eof, write := none, pos := pos }).decoder = none ∧
      (pump env e { read := .fail err, write := none, pos := pos' }).decoder = none ∧
      (pump env e { read := .eof, write := none, pos := pos }).shared =
        { e.status with playingFile := false, currentFile := "" } ∧
      (pump env e { read := .fail err, write := none, pos := pos' }).shared =
        { e.status with
          playingFile := false
          currentFile := ""
          errors := e.status.errors ++
            [if e.status.currentFile ≠ "" then
               "Failed to decode mp3 stream" ++ ": " ++ (e.status.currentFile ++ ": ") ++ err
             else "Failed to decode mp3 stream" ++ ": " ++ err] } := by
  have hrun : (e.status.paused || e.decoder.isNone) = false := by simp [hd, hp]
  unfold pump
  simp only [hrun, Bool.false_eq_true, if_false]
  refine ⟨rfl, rfl, rfl, ?_⟩
  by_cases hc : e.status.currentFile = "" <;>
    simp [stopPlaying, updateStatus, soundStatus.appendErr, hc]

/-- Witness for C10: the track "a.mp3" has been loaded and is playing. -/
theorem pump_eof_and_failure_agree_witness :
    (pump exactEnv (Engine.init.step exactEnv
        (.playSong "a.mp3" (.decoded { sampleRate := 44100, length := 400 })))
        { read := .eof, write := none, pos := 8 }).shared =
      { playingFile := false, currentFile := "", fractionPlayed := some 0,
        paused := false, errors := [] } ∧
    (pump exactEnv (Engine.init.step exactEnv
        (.playSong "a.mp3" (.decoded { sampleRate := 44100, length := 400 })))
        { read := .fail "bad frame", write := none, pos := 8 }).shared =
      { playingFile := false, currentFile := "", fractionPlayed := some 0,
        paused := false, errors := ["Failed to decode mp3 stream: a.mp3: bad frame"] } :=
  ⟨(pump_eof_and_failure_agree exactEnv _ { sampleRate := 44100, length := 400 }
      "bad frame" 8 8 (by decide) (by decide)).2.2.1.trans (by decide),
   (pump_eof_and_failure_agree exactEnv _ { sampleRate := 44100, length := 400 }
      "bad frame" 8 8 (by decide) (by decide)).2.2.2.trans (by decide)⟩

end Mp3Player
